import Mathlib

/-!
Verification of `vault-pki-backend-venafi` (plugin/pki/util.go) against its
natural-language specification.

The Go source is shallowly embedded: pure helpers become Lean functions on
`List`/`String`; the Vault storage backend becomes an explicit association
list threaded through the token-refresh functions; the vcert connector, the
Go standard library's PEM-certificate parser (`AppendCertsFromPEM`) and
Unicode lower-casing are abstracted as function parameters, since they are
external collaborators whose internals the spec puts out of scope.
-/

namespace VenafiPKI

/-- Lexicographic `≤` on character lists, comparing code points. Go's
`sort.Strings` orders strings by byte-wise comparison of their UTF-8
encodings, which coincides with code-point lexicographic order. -/
def charListLe : List Char → List Char → Bool
  | [], _ => true
  | _ :: _, [] => false
  | a :: as, b :: bs => if a < b then true else if b < a then false else charListLe as bs

/-- The string order used by `sort.Strings`, as a relation. -/
def strLe (a b : String) : Prop := charListLe a.data b.data = true

instance : DecidableRel strLe := fun a b => by
  unfold strLe; infer_instance

/-- Models Go `sort.Strings`: the unique ascending sorted permutation of
the list (for equal strings stability is irrelevant, so any correct sort
denotes the same function). -/
def sortStrings (l : List String) : List String :=
  l.insertionSort strLe

/-- Models the element-by-element comparison loop
`for i := range x1 { if x1[i] != y1[i] { return false } }` run on two lists
of equal length (the callers check lengths first). -/
def pairwiseEq : List String → List String → Bool
  | [], [] => true
  | a :: as, b :: bs => if a ≠ b then false else pairwiseEq as bs
  | _, _ => false

/-- Embeds `SameStringSlice` (util.go:118-134): length check, copy, sort both,
compare elementwise. -/
def SameStringSlice (x y : List String) : Bool :=
  if x.length ≠ y.length then false
  else pairwiseEq (sortStrings x) (sortStrings y)

/-- Models Go `net.IP`: `bytes` is the in-memory representation (4- or
16-byte form), `str` the canonical `String()` rendering. `String()` is a
function of the bytes in Go; here it is carried as a field because the code
under verification observes an IP only through `String()`, and two values
with different `bytes` may share one canonical `str`. -/
structure NetIP where
  bytes : List Nat
  str : String
deriving DecidableEq, Repr

/-- Embeds `SameIpSlice` (util.go:98-116): length check, render both lists
via `String()`, sort, compare elementwise. -/
def SameIpSlice (x y : List NetIP) : Bool :=
  if x.length ≠ y.length then false
  else pairwiseEq (sortStrings (x.map NetIP.str)) (sortStrings (y.map NetIP.str))

/-- Embeds `areDNSNamesCorrect` (util.go:136-190). With no requested CN
names it defers to `SameStringSlice`; otherwise it checks the length bound,
that each requested alt name occurs in the actual names, and that each
actual name occurs in `expectedAltNames ++ expectedCNNames`
(`allNames := append(expectedAltNames, expectedCNNames...)`). -/
def areDNSNamesCorrect (actualAltNames expectedCNNames expectedAltNames : List String) : Bool :=
  if expectedCNNames.length = 0 then
    if actualAltNames.length ≠ expectedAltNames.length then false
    else if ¬ SameStringSlice actualAltNames expectedAltNames then false
    else true
  else
    if actualAltNames.length < expectedAltNames.length then false
    else if ¬ (expectedAltNames.all fun expectedName => actualAltNames.contains expectedName) then
      false
    else
      let allNames := expectedAltNames ++ expectedCNNames
      actualAltNames.all fun name => allNames.contains name

/-- Embeds `normalizeSerial` (util.go:47-49):
`strings.Replace(strings.ToLower(serial), ":", "-", -1)`. Strings are lists
of characters; `lower` abstracts Go's Unicode-aware `strings.ToLower`
(which lower-cases rune by rune), and the single-rune replacement of `':'`
by `'-'` is a character map. -/
def normalizeSerial (lower : Char → Char) (serial : List Char) : List Char :=
  (serial.map lower).map fun c => if c = ':' then '-' else c

/-- `c` is an uppercase ASCII letter. -/
def isUpperAscii (c : Char) : Bool :=
  'A' ≤ c ∧ c ≤ 'Z'

/-! ## Trust bundle and HTTP client (util.go:267-320) -/

/-- Models an `x509.CertPool` holding the certificates appended from the
given PEM data. -/
structure CertPool where
  pemData : String
deriving DecidableEq, Repr

/-- Embeds `parseTrustBundlePEM` (util.go:307-320). `appendOk` abstracts
`x509.CertPool.AppendCertsFromPEM` succeeding on the PEM data (i.e. the
data contains at least one parseable certificate); the rest of the control
flow is the source's. -/
def parseTrustBundlePEM (appendOk : String → Bool) (trustBundlePem : String) :
    Except String CertPool :=
  if trustBundlePem ≠ "" then
    if appendOk trustBundlePem then .ok ⟨trustBundlePem⟩
    else .error "failed to parse PEM trust bundle"
  else
    .error "trust bundle PEM data is empty"

/-- Models `tls.RenegotiationSupport`; `never` is the zero value
(`tls.RenegotiateNever`). -/
inductive Renegotiation where
  | never
  | onceAsClient
  | freelyAsClient
deriving DecidableEq, Repr

/-- Models `tls.Config` as the code observes it: the verification pool
(`RootCAs`, `none` = nil), the `Renegotiation` setting, and `otherSettings`
standing for every remaining field, so that cloning and field mutation are
distinguishable. The zero value `&tls.Config{}` is
`⟨none, .never, 0⟩`. -/
structure TLSConfig where
  rootCAs : Option CertPool
  renegotiation : Renegotiation
  otherSettings : Nat
deriving DecidableEq, Repr

/-- Models the `net.Dialer` literal inside `getHTTPClient`. -/
structure Dialer where
  timeoutSec : Nat
  keepAliveSec : Nat
  dualStack : Bool
deriving DecidableEq, Repr

/-- Models the `http.Transport` literal inside `getHTTPClient`. -/
structure Transport where
  dialer : Dialer
  maxIdleConns : Nat
  idleConnTimeoutSec : Nat
  tlsHandshakeTimeoutSec : Nat
  expectContinueTimeoutSec : Nat
  tlsClientConfig : Option TLSConfig
deriving DecidableEq, Repr

/-- Models `http.Client` as built by `getHTTPClient`. -/
structure HttpClient where
  timeoutSec : Nat
  transport : Transport
deriving DecidableEq, Repr

/-- A Go-level outcome: an error value, or a runtime panic
(dereferencing a nil `*tls.Config`). -/
inductive GoErr where
  | msg (s : String)
  | nilPanic
deriving DecidableEq, Repr

/-- Embeds `getHTTPClient` (util.go:267-305) with the process-wide
`http.DefaultTransport.(*http.Transport).TLSClientConfig` made explicit:
`defaultCfg` is its value before the call (`none` = nil pointer) and the
second component of the result is its value after the call, so aliasing
and in-place mutation of the shared default are observable.

Source control flow: read the default transport's `TLSClientConfig`; if a
trust bundle is supplied, parse it (propagating the error), replace a nil
config by `&tls.Config{}` or clone a non-nil one, and set `RootCAs`;
then unconditionally set `Renegotiation = tls.RenegotiateFreelyAsClient`
— through the *shared* pointer when no bundle was supplied (a panic if it
was nil) — and build the transport and client. -/
def getHTTPClient (defaultCfg : Option TLSConfig) (appendOk : String → Bool)
    (trustBundlePem : String) : Except GoErr HttpClient × Option TLSConfig :=
  let netTransport : Transport :=
    { dialer := { timeoutSec := 30, keepAliveSec := 30, dualStack := true }
      maxIdleConns := 100
      idleConnTimeoutSec := 90
      tlsHandshakeTimeoutSec := 10
      expectContinueTimeoutSec := 1
      tlsClientConfig := none }
  if trustBundlePem ≠ "" then
    match parseTrustBundlePEM appendOk trustBundlePem with
    | .error e => (.error (.msg e), defaultCfg)
    | .ok trustBundle =>
      let base : TLSConfig :=
        match defaultCfg with
        | none => { rootCAs := none, renegotiation := .never, otherSettings := 0 }
        | some c => c
      let tlsConfig : TLSConfig :=
        { base with rootCAs := some trustBundle, renegotiation := .freelyAsClient }
      (.ok { timeoutSec := 30,
             transport := { netTransport with tlsClientConfig := some tlsConfig } },
       defaultCfg)
  else
    match defaultCfg with
    | none => (.error .nilPanic, defaultCfg)
    | some c =>
      let mutated : TLSConfig := { c with renegotiation := .freelyAsClient }
      (.ok { timeoutSec := 30,
             transport := { netTransport with tlsClientConfig := some mutated } },
       some mutated)

/-! ## Token refresh and persistence (util.go:209-265) -/

/-- Models `tpp.OauthRefreshAccessTokenResponse` as read by the code. -/
structure OauthRefreshAccessTokenResponse where
  access_token : String
  refresh_token : String
deriving DecidableEq, Repr

/-- Models `endpoint.Authentication` as passed to `RefreshAccessToken`. -/
structure Authentication where
  refreshToken : String
  clientId : String
  scope : String
deriving DecidableEq, Repr

/-- The part of `vcert.Config` the code reads: `cfg.ConnectionTrust` and
`cfg.Credentials.RefreshToken`. -/
structure VcertConfig where
  connectionTrust : String
  credentialsRefreshToken : String
deriving DecidableEq, Repr

/-- The stored Venafi secret entry: the token pair plus `otherFields`
standing for the remaining fields of the entry (URL, zone, user, ...),
which `storeAccessData` carries over unchanged. -/
structure VenafiSecretEntry where
  accessToken : String
  refreshToken : String
  otherFields : String
deriving DecidableEq, Repr

/-- The role entry as read by `storeAccessData`: only `VenafiSecret`, the
reference to the stored credential, is observed. -/
structure RoleEntry where
  venafiSecret : String
deriving DecidableEq, Repr

/-- Vault storage for credential entries, as an association list keyed by
path; `req.Storage.Put` prepends (newest entry shadows older ones). -/
abbrev Storage := List (String × VenafiSecretEntry)

/-- Modelled from the spec: `CredentialsRootPath` is declared elsewhere in
the repository (only its use is in util.go); the spec says credentials are
"stored under a fixed root path segment associated with the role's
referenced secret name", so it is a fixed string whose exact value is
irrelevant to the claims. -/
def CredentialsRootPath : String := "venafi-credentials/"

/-- The backend's role/secret readers `b.getRole` and `b.getVenafiSecret`
(defined elsewhere in the repository, outside util.go), abstracted as
functions of the storage and the name. -/
structure Backend where
  getRole : Storage → String → Except String RoleEntry
  getVenafiSecret : Storage → String → Except String VenafiSecretEntry

/-- The connector's `RefreshAccessToken`, returning a Go
`(response, error)` pair (`none` = nil error). -/
structure Connector where
  refresh : Authentication → OauthRefreshAccessTokenResponse × Option String

/-- Embeds `storeAccessData` (util.go:237-265). Returns the Go error
(`none` = nil) and the storage after the call: resolve the role, fail if
its `VenafiSecret` reference is empty, resolve the secret entry, overwrite
*both* tokens on it and put it back under
`CredentialsRootPath + entry.VenafiSecret` in one write. -/
def storeAccessData (b : Backend) (stor : Storage) (roleName : String)
    (resp : OauthRefreshAccessTokenResponse) : Option String × Storage :=
  match b.getRole stor roleName with
  | .error e => (some e, stor)
  | .ok entry =>
    if entry.venafiSecret = "" then
      (some ("Role " ++ roleName ++ " does not have any Venafi secret associated"), stor)
    else
      match b.getVenafiSecret stor entry.venafiSecret with
      | .error e => (some e, stor)
      | .ok venafiEntry =>
        let venafiEntry :=
          { venafiEntry with
            accessToken := resp.access_token
            refreshToken := resp.refresh_token }
        (none, (CredentialsRootPath ++ entry.venafiSecret, venafiEntry) :: stor)

/-- The `endpoint.Authentication` literal built at util.go:219-223. -/
def refreshAuth (cfg : VcertConfig) : Authentication :=
  { refreshToken := cfg.credentialsRefreshToken
    clientId := "hashicorp-vault-by-venafi"
    scope := "certificate:manage,revoke" }

/-- Result of `updateAccessToken`: the returned Go error (`none` = nil), or
a propagated runtime panic. -/
inductive UpdateOutcome where
  | panicked
  | returned (err : Option String)
deriving DecidableEq, Repr

/-- Embeds `updateAccessToken` (util.go:209-235). The third component of
the result is the trace of `RefreshAccessToken` invocations (each with the
`Authentication` it was passed). Control flow from the source: build the
HTTP client (returning its error, or propagating its panic); call
`RefreshAccessToken` with the fixed authentication; if both returned
tokens are non-empty, persist them via `storeAccessData` and return its
error; otherwise `return err` — the *connector's* error, which may be nil.
(`getTppConnector`'s error is discarded by the source; the connector is a
parameter here, and `SetHTTPClient` only attaches the client.) -/
def updateAccessToken (defaultCfg : Option TLSConfig) (appendOk : String → Bool)
    (conn : Connector) (cfg : VcertConfig) (b : Backend) (stor : Storage)
    (roleName : String) : UpdateOutcome × Storage × List Authentication :=
  match getHTTPClient defaultCfg appendOk cfg.connectionTrust with
  | (.error .nilPanic, _) => (.panicked, stor, [])
  | (.error (.msg e), _) => (.returned (some e), stor, [])
  | (.ok _, _) =>
    let auth := refreshAuth cfg
    let r := conn.refresh auth
    let resp := r.1
    if resp.access_token ≠ "" ∧ resp.refresh_token ≠ "" then
      match storeAccessData b stor roleName resp with
      | (some e, stor') => (.returned (some e), stor', [auth])
      | (none, stor') => (.returned none, stor', [auth])
    else
      (.returned r.2, stor, [auth])

/-! ## Helper lemmas: the sort-based slice comparisons decide multiset
equality -/

theorem charListLe_cons (a b : Char) (as bs : List Char) :
    charListLe (a :: as) (b :: bs) =
      if a < b then true else if b < a then false else charListLe as bs := rfl

theorem charListLe_total : ∀ as bs : List Char, charListLe as bs = true ∨ charListLe bs as = true
  | [], _ => .inl rfl
  | _ :: _, [] => .inr rfl
  | a :: as, b :: bs => by
    rcases lt_trichotomy a b with h | rfl | h
    · left; rw [charListLe_cons, if_pos h]
    · rcases charListLe_total as bs with ih | ih
      · left; rw [charListLe_cons, if_neg (lt_irrefl a), if_neg (lt_irrefl a)]; exact ih
      · right; rw [charListLe_cons, if_neg (lt_irrefl a), if_neg (lt_irrefl a)]; exact ih
    · right; rw [charListLe_cons, if_pos h]

theorem charListLe_trans : ∀ as bs cs : List Char, charListLe as bs = true →
    charListLe bs cs = true → charListLe as cs = true
  | [], _, _, _, _ => rfl
  | _ :: _, [], _, h₁, _ => by simp [charListLe] at h₁
  | _ :: _, _ :: _, [], _, h₂ => by simp [charListLe] at h₂
  | a :: as, b :: bs, c :: cs, h₁, h₂ => by
    rcases lt_trichotomy a b with hab | rfl | hab
    · rcases lt_trichotomy b c with hbc | rfl | hbc
      · rw [charListLe_cons, if_pos (lt_trans hab hbc)]
      · rw [charListLe_cons, if_pos hab]
      · rw [charListLe_cons, if_neg (lt_asymm hbc), if_pos hbc] at h₂
        exact absurd h₂ (by simp)
    · rw [charListLe_cons, if_neg (lt_irrefl a), if_neg (lt_irrefl a)] at h₁
      rcases lt_trichotomy a c with hac | rfl | hac
      · rw [charListLe_cons, if_pos hac]
      · rw [charListLe_cons, if_neg (lt_irrefl a), if_neg (lt_irrefl a)] at h₂ ⊢
        exact charListLe_trans as bs cs h₁ h₂
      · rw [charListLe_cons, if_neg (lt_asymm hac), if_pos hac] at h₂
        exact absurd h₂ (by simp)
    · rw [charListLe_cons, if_neg (lt_asymm hab), if_pos hab] at h₁
      exact absurd h₁ (by simp)

theorem charListLe_antisymm : ∀ as bs : List Char, charListLe as bs = true →
    charListLe bs as = true → as = bs
  | [], [], _, _ => rfl
  | [], _ :: _, _, h₂ => by simp [charListLe] at h₂
  | _ :: _, [], h₁, _ => by simp [charListLe] at h₁
  | a :: as, b :: bs, h₁, h₂ => by
    rcases lt_trichotomy a b with hab | rfl | hab
    · rw [charListLe_cons, if_neg (lt_asymm hab), if_pos hab] at h₂
      exact absurd h₂ (by simp)
    · rw [charListLe_cons, if_neg (lt_irrefl a), if_neg (lt_irrefl a)] at h₁ h₂
      rw [charListLe_antisymm as bs h₁ h₂]
    · rw [charListLe_cons, if_neg (lt_asymm hab), if_pos hab] at h₁
      exact absurd h₁ (by simp)

theorem sortStrings_perm (l : List String) : List.Perm (sortStrings l) l :=
  List.perm_insertionSort _ l

theorem sortStrings_sorted (l : List String) : List.Sorted strLe (sortStrings l) := by
  haveI : IsTotal String strLe := ⟨fun a b => charListLe_total a.data b.data⟩
  haveI : IsTrans String strLe := ⟨fun a b c => charListLe_trans a.data b.data c.data⟩
  exact List.sorted_insertionSort _ l

theorem sortStrings_eq_iff {a b : List String} :
    sortStrings a = sortStrings b ↔ List.Perm a b := by
  haveI : IsAntisymm String strLe :=
    ⟨fun a b h₁ h₂ => by
      cases a; cases b
      exact congrArg String.mk (charListLe_antisymm _ _ h₁ h₂)⟩
  constructor
  · intro h
    exact (sortStrings_perm a).symm.trans (h ▸ sortStrings_perm b)
  · intro h
    exact List.eq_of_perm_of_sorted
      ((sortStrings_perm a).trans (h.trans (sortStrings_perm b).symm))
      (sortStrings_sorted a) (sortStrings_sorted b)

theorem pairwiseEq_iff : ∀ a b : List String, pairwiseEq a b = true ↔ a = b
  | [], [] => by simp [pairwiseEq]
  | [], _ :: _ => by simp [pairwiseEq]
  | _ :: _, [] => by simp [pairwiseEq]
  | a :: as, b :: bs => by
    rw [pairwiseEq]
    by_cases h : a = b
    · simp [h, pairwiseEq_iff as bs]
    · simp [h]

/-- `SameStringSlice` decides permutation (multiset) equality. -/
theorem SameStringSlice_iff (x y : List String) :
    SameStringSlice x y = true ↔ List.Perm x y := by
  rw [SameStringSlice]
  by_cases h : x.length = y.length
  · rw [if_neg (not_not_intro h), pairwiseEq_iff, sortStrings_eq_iff]
  · rw [if_pos h]
    exact iff_of_false (by simp) fun hp => h hp.length_eq

/-- `SameIpSlice` decides permutation equality of the canonical string
forms. -/
theorem SameIpSlice_iff (x y : List NetIP) :
    SameIpSlice x y = true ↔ List.Perm (x.map NetIP.str) (y.map NetIP.str) := by
  rw [SameIpSlice]
  by_cases h : x.length = y.length
  · rw [if_neg (not_not_intro h), pairwiseEq_iff, sortStrings_eq_iff]
  · rw [if_pos h]
    exact iff_of_false (by simp) fun hp => h (by simpa using hp.length_eq)

theorem contains_iff (l : List String) (a : String) : l.contains a = true ↔ a ∈ l := by
  simp [List.contains]

theorem allContains_iff (l m : List String) :
    (l.all fun x => m.contains x) = true ↔ ∀ x ∈ l, x ∈ m := by
  simp [List.all_eq_true, contains_iff]

/-! ## Claims -/

/-- C4: `parseTrustBundlePEM` fails exactly when the input is the empty
string (error "trust bundle PEM data is empty") or when
`AppendCertsFromPEM` finds no parseable certificate in it (error "failed
to parse PEM trust bundle"); otherwise it returns the (non-nil) pool
holding the appended bundle. It is a pure function: the embedding is a
total Lean function of its two arguments, reading and writing no state. -/
theorem C4_parseTrustBundlePEM_spec (appendOk : String → Bool) (pem : String) :
    (parseTrustBundlePEM appendOk pem = .error "trust bundle PEM data is empty" ↔ pem = "")
    ∧ (parseTrustBundlePEM appendOk pem = .error "failed to parse PEM trust bundle"
        ↔ pem ≠ "" ∧ appendOk pem = false)
    ∧ (parseTrustBundlePEM appendOk pem = .ok ⟨pem⟩ ↔ pem ≠ "" ∧ appendOk pem = true) := by
  by_cases hp : pem = ""
  · subst hp
    simp [parseTrustBundlePEM]
  · by_cases ha : appendOk pem
    · simp [parseTrustBundlePEM, hp, ha]
    · simp only [Bool.not_eq_true] at ha
      simp [parseTrustBundlePEM, hp, ha]

/-- C6: whenever `getHTTPClient` succeeds, the returned client has dial
timeout 30s, keep-alive 30s, dual-stack enabled, at most 100 idle
connections, idle-connection timeout 90s, TLS handshake timeout 10s,
overall request timeout 30s, and a TLS configuration whose renegotiation
setting is `RenegotiateFreelyAsClient`. -/
theorem C6_getHTTPClient_config (defaultCfg : Option TLSConfig) (appendOk : String → Bool)
    (pem : String) (client : HttpClient) (post : Option TLSConfig)
    (h : getHTTPClient defaultCfg appendOk pem = (.ok client, post)) :
    client.timeoutSec = 30
    ∧ client.transport.dialer.timeoutSec = 30
    ∧ client.transport.dialer.keepAliveSec = 30
    ∧ client.transport.dialer.dualStack = true
    ∧ client.transport.maxIdleConns = 100
    ∧ client.transport.idleConnTimeoutSec = 90
    ∧ client.transport.tlsHandshakeTimeoutSec = 10
    ∧ ∃ cfg, client.transport.tlsClientConfig = some cfg
        ∧ cfg.renegotiation = .freelyAsClient := by
  rw [getHTTPClient.eq_def] at h
  split at h
  · split at h
    · exact absurd (congrArg Prod.fst h) (by simp)
    · rw [Prod.mk.injEq] at h
      cases (Except.ok.injEq _ _).mp h.1
      refine ⟨rfl, rfl, rfl, rfl, rfl, rfl, rfl, _, rfl, rfl⟩
  · split at h
    · exact absurd (congrArg Prod.fst h) (by simp)
    · rw [Prod.mk.injEq] at h
      cases (Except.ok.injEq _ _).mp h.1
      refine ⟨rfl, rfl, rfl, rfl, rfl, rfl, rfl, _, rfl, rfl⟩

/-- C6 witness: the theorem applied at a concrete successful call (empty
trust bundle, non-nil shared default configuration). -/
theorem C6_getHTTPClient_config_witness :
    ({ timeoutSec := 30
       transport :=
        { dialer := { timeoutSec := 30, keepAliveSec := 30, dualStack := true }
          maxIdleConns := 100
          idleConnTimeoutSec := 90
          tlsHandshakeTimeoutSec := 10
          expectContinueTimeoutSec := 1
          tlsClientConfig := some ⟨none, .freelyAsClient, 0⟩ } } : HttpClient).timeoutSec = 30
    ∧ (({ timeoutSec := 30
          transport :=
           { dialer := { timeoutSec := 30, keepAliveSec := 30, dualStack := true }
             maxIdleConns := 100
             idleConnTimeoutSec := 90
             tlsHandshakeTimeoutSec := 10
             expectContinueTimeoutSec := 1
             tlsClientConfig := some ⟨none, .freelyAsClient, 0⟩ } } : HttpClient)).transport.dialer.timeoutSec = 30
    ∧ (({ timeoutSec := 30
          transport :=
           { dialer := { timeoutSec := 30, keepAliveSec := 30, dualStack := true }
             maxIdleConns := 100
             idleConnTimeoutSec := 90
             tlsHandshakeTimeoutSec := 10
             expectContinueTimeoutSec := 1
             tlsClientConfig := some ⟨none, .freelyAsClient, 0⟩ } } : HttpClient)).transport.dialer.keepAliveSec = 30
    ∧ (({ timeoutSec := 30
          transport :=
           { dialer := { timeoutSec := 30, keepAliveSec := 30, dualStack := true }
             maxIdleConns := 100
             idleConnTimeoutSec := 90
             tlsHandshakeTimeoutSec := 10
             expectContinueTimeoutSec := 1
             tlsClientConfig := some ⟨none, .freelyAsClient, 0⟩ } } : HttpClient)).transport.dialer.dualStack = true
    ∧ (({ timeoutSec := 30
          transport :=
           { dialer := { timeoutSec := 30, keepAliveSec := 30, dualStack := true }
             maxIdleConns := 100
             idleConnTimeoutSec := 90
             tlsHandshakeTimeoutSec := 10
             expectContinueTimeoutSec := 1
             tlsClientConfig := some ⟨none, .freelyAsClient, 0⟩ } } : HttpClient)).transport.maxIdleConns = 100
    ∧ (({ timeoutSec := 30
          transport :=
           { dialer := { timeoutSec := 30, keepAliveSec := 30, dualStack := true }
             maxIdleConns := 100
             idleConnTimeoutSec := 90
             tlsHandshakeTimeoutSec := 10
             expectContinueTimeoutSec := 1
             tlsClientConfig := some ⟨none, .freelyAsClient, 0⟩ } } : HttpClient)).transport.idleConnTimeoutSec = 90
    ∧ (({ timeoutSec := 30
          transport :=
           { dialer := { timeoutSec := 30, keepAliveSec := 30, dualStack := true }
             maxIdleConns := 100
             idleConnTimeoutSec := 90
             tlsHandshakeTimeoutSec := 10
             expectContinueTimeoutSec := 1
             tlsClientConfig := some ⟨none, .freelyAsClient, 0⟩ } } : HttpClient)).transport.tlsHandshakeTimeoutSec = 10
    ∧ ∃ cfg, (({ timeoutSec := 30
                 transport :=
                  { dialer := { timeoutSec := 30, keepAliveSec := 30, dualStack := true }
                    maxIdleConns := 100
                    idleConnTimeoutSec := 90
                    tlsHandshakeTimeoutSec := 10
                    expectContinueTimeoutSec := 1
                    tlsClientConfig := some ⟨none, .freelyAsClient, 0⟩ } } : HttpClient)).transport.tlsClientConfig = some cfg
        ∧ cfg.renegotiation = .freelyAsClient :=
  C6_getHTTPClient_config (some ⟨none, .never, 0⟩) (fun _ => true) "" _ _ rfl

/-- C5 counterexample: the claim "the shared default TLS configuration is
never mutated in place" is false. With no trust bundle supplied and a
non-nil process-wide default configuration (renegotiation `never`,
`otherSettings = 5`), the call aliases the shared default and switches its
renegotiation field to `freelyAsClient` in place: after the call the
shared configuration differs from the one before it. -/
theorem C5_counterexample :
    (getHTTPClient (some ⟨none, .never, 5⟩) (fun _ => true) "").2 =
      some ⟨none, .freelyAsClient, 5⟩
    ∧ (getHTTPClient (some ⟨none, .never, 5⟩) (fun _ => true) "").2 ≠
      some ⟨none, .never, 5⟩ :=
  ⟨rfl, by decide⟩

/-- C5 amended: when a trust bundle is supplied, the shared default TLS
configuration is cloned before its verification pool is replaced and is
left unmodified (on success and on failure alike); but when no trust
bundle is supplied, the shared default is aliased, not cloned: if it is
non-nil, its renegotiation field is set to `freelyAsClient` in place
before the client is built, and if it is nil the call panics. -/
theorem C5_getHTTPClient_default_mutation (defaultCfg : Option TLSConfig)
    (appendOk : String → Bool) (pem : String) :
    (pem ≠ "" → (getHTTPClient defaultCfg appendOk pem).2 = defaultCfg)
    ∧ (∀ c : TLSConfig, pem = "" → defaultCfg = some c →
        (getHTTPClient defaultCfg appendOk pem).2 =
          some { c with renegotiation := .freelyAsClient })
    ∧ (pem = "" → defaultCfg = none →
        (getHTTPClient defaultCfg appendOk pem).1 = .error .nilPanic) := by
  refine ⟨fun hp => ?_, fun c hp hd => ?_, fun hp hd => ?_⟩
  · rw [getHTTPClient.eq_def, if_pos hp]
    cases parseTrustBundlePEM appendOk pem <;> cases defaultCfg <;> rfl
  · subst hd
    rw [getHTTPClient.eq_def, if_neg (not_not_intro hp)]
  · subst hd
    rw [getHTTPClient.eq_def, if_neg (not_not_intro hp)]

/-- C5 witness: the amended theorem applied at concrete inputs — a
supplied trust bundle leaves the default untouched; an absent trust bundle
with a non-nil default rewrites its renegotiation field in place. -/
theorem C5_getHTTPClient_default_mutation_witness :
    (getHTTPClient (some ⟨none, .never, 7⟩) (fun _ => true) "PEM").2 =
      some ⟨none, .never, 7⟩
    ∧ (getHTTPClient (some ⟨none, .never, 7⟩) (fun _ => true) "").2 =
      some ⟨none, .freelyAsClient, 7⟩ :=
  ⟨(C5_getHTTPClient_default_mutation (some ⟨none, .never, 7⟩) (fun _ => true) "PEM").1
      (by decide),
   (C5_getHTTPClient_default_mutation (some ⟨none, .never, 7⟩) (fun _ => true) "").2.1
      ⟨none, .never, 7⟩ rfl rfl⟩

/-- C7: `SameIpSlice` accepts exactly when its two arguments are equal as
unordered collections (multisets) of the addresses' canonical string
forms (`net.IP.String()`): the result is `true` iff the lists of canonical
forms are permutations of each other, it is symmetric in its arguments,
and it is invariant under permutation of an argument. Because only the
canonical `str` projection is consulted, the result is independent of the
`bytes` (in-memory) representation. -/
theorem C7_SameIpSlice_canonical_sets (x y : List NetIP) :
    (SameIpSlice x y = true ↔ List.Perm (x.map NetIP.str) (y.map NetIP.str))
    ∧ SameIpSlice x y = SameIpSlice y x
    ∧ (∀ x' : List NetIP, List.Perm x x' → SameIpSlice x' y = SameIpSlice x y) := by
  refine ⟨SameIpSlice_iff x y, ?_, ?_⟩
  · refine Bool.eq_iff_iff.mpr ?_
    rw [SameIpSlice_iff, SameIpSlice_iff]
    exact ⟨List.Perm.symm, List.Perm.symm⟩
  · intro x' hp
    refine Bool.eq_iff_iff.mpr ?_
    rw [SameIpSlice_iff, SameIpSlice_iff]
    exact ⟨fun h => (hp.map NetIP.str).trans h, fun h => (hp.map NetIP.str).symm.trans h⟩

/-- C7 witness: permutation invariance applied at concrete lists — a
4-byte and a 16-byte in-memory form of the same two addresses, in swapped
order. -/
theorem C7_SameIpSlice_canonical_sets_witness :
    SameIpSlice
      [⟨[10, 0, 0, 5], "10.0.0.5"⟩, ⟨[127, 0, 0, 1], "127.0.0.1"⟩]
      [⟨[0, 0, 0, 0, 0, 0, 0, 0, 0, 0, 255, 255, 127, 0, 0, 1], "127.0.0.1"⟩,
       ⟨[10, 0, 0, 5], "10.0.0.5"⟩] =
    SameIpSlice
      [⟨[127, 0, 0, 1], "127.0.0.1"⟩, ⟨[10, 0, 0, 5], "10.0.0.5"⟩]
      [⟨[0, 0, 0, 0, 0, 0, 0, 0, 0, 0, 255, 255, 127, 0, 0, 1], "127.0.0.1"⟩,
       ⟨[10, 0, 0, 5], "10.0.0.5"⟩] :=
  (C7_SameIpSlice_canonical_sets
      [⟨[127, 0, 0, 1], "127.0.0.1"⟩, ⟨[10, 0, 0, 5], "10.0.0.5"⟩]
      [⟨[0, 0, 0, 0, 0, 0, 0, 0, 0, 0, 255, 255, 127, 0, 0, 1], "127.0.0.1"⟩,
       ⟨[10, 0, 0, 5], "10.0.0.5"⟩]).2.2
    [⟨[10, 0, 0, 5], "10.0.0.5"⟩, ⟨[127, 0, 0, 1], "127.0.0.1"⟩]
    (List.Perm.swap _ _ _)

/-- C1 counterexample: with non-empty CN names, `areDNSNamesCorrect` does
NOT require the DNS-name set to equal `{cn} ∪ altNames`, and it accepts
certificates missing the CN name. Concretely it accepts actual names
`["alt.example.com"]` for CN `["cn.example.com"]` and alt names
`["alt.example.com"]`, although the CN name appears nowhere in the actual
names and the actual set differs from the requested union. -/
theorem C1_counterexample :
    areDNSNamesCorrect ["alt.example.com"] ["cn.example.com"] ["alt.example.com"] = true
    ∧ "cn.example.com" ∉ (["alt.example.com"] : List String)
    ∧ ¬ List.Perm ["alt.example.com"] (["cn.example.com"] ++ ["alt.example.com"]) := by
  refine ⟨by decide, by decide, fun hp => ?_⟩
  exact absurd hp.length_eq (by decide)

/-- C1 amended: with no requested CN names, `areDNSNamesCorrect` accepts
exactly when the actual DNS names equal the requested alt names as
unordered multisets; with requested CN names present, it accepts exactly
when there are at least as many actual names as requested alt names,
every requested alt name occurs among the actual names, and every actual
name occurs among the requested alt names or CN names — the CN names
themselves are *not* required to occur, so exact set equality with
`{cn} ∪ altNames` is not enforced. -/
theorem C1_areDNSNamesCorrect_characterization
    (actual cnNames altNames : List String) :
    areDNSNamesCorrect actual cnNames altNames = true ↔
      (if cnNames = [] then List.Perm actual altNames
       else altNames.length ≤ actual.length
            ∧ (∀ e ∈ altNames, e ∈ actual)
            ∧ (∀ n ∈ actual, n ∈ altNames ∨ n ∈ cnNames)) := by
  rcases eq_or_ne cnNames [] with rfl | hcn
  · rw [if_pos rfl, areDNSNamesCorrect]
    simp only [List.length_nil]
    rw [if_pos trivial]
    by_cases hl : actual.length = altNames.length
    · rw [if_neg (not_not_intro hl)]
      by_cases hs : SameStringSlice actual altNames = true
      · rw [hs, if_neg (by simp)]
        exact iff_of_true rfl ((SameStringSlice_iff actual altNames).mp hs)
      · rw [Bool.eq_false_iff.mpr hs, if_pos (by simp)]
        exact iff_of_false (by simp) fun hp => hs ((SameStringSlice_iff actual altNames).mpr hp)
    · rw [if_pos hl]
      exact iff_of_false (by simp) fun hp => hl hp.length_eq
  · rw [if_neg hcn, areDNSNamesCorrect,
        if_neg (by simpa [List.length_eq_zero] using hcn)]
    by_cases h1 : actual.length < altNames.length
    · rw [if_pos h1]
      exact iff_of_false (by simp) fun hc => absurd h1 (not_lt.mpr hc.1)
    · rw [if_neg h1]
      by_cases h2 : (altNames.all fun expectedName => actual.contains expectedName) = true
      · rw [h2, if_neg (by simp)]
        show (actual.all fun name => (altNames ++ cnNames).contains name) = true ↔ _
        rw [allContains_iff]
        constructor
        · intro hall
          refine ⟨not_lt.mp h1, (allContains_iff _ _).mp h2, fun n hn => ?_⟩
          simpa [List.mem_append] using hall n hn
        · intro hc n hn
          simpa [List.mem_append] using hc.2.2 n hn
      · rw [Bool.eq_false_iff.mpr h2, if_pos (by simp)]
        exact iff_of_false (by simp) fun hc => h2 ((allContains_iff _ _).mpr hc.2.1)

/-- C9: `normalizeSerial` is idempotent and its output contains no colon
and no uppercase ASCII letter, for any rune-wise lower-casing function
that is idempotent, never produces an uppercase ASCII letter, and fixes
`'-'` — three facts that hold of Go's Unicode `strings.ToLower`
(lower-casing a rune twice equals lower-casing it once; the lower-case of
any rune is never `A`–`Z`; `'-'` has no case). -/
theorem C9_normalizeSerial_idempotent (lower : Char → Char)
    (hidem : ∀ c, lower (lower c) = lower c)
    (hupper : ∀ c, isUpperAscii (lower c) = false)
    (hdash : lower '-' = '-') (serial : List Char) :
    normalizeSerial lower (normalizeSerial lower serial) = normalizeSerial lower serial
    ∧ ∀ c ∈ normalizeSerial lower serial, c ≠ ':' ∧ isUpperAscii c = false := by
  have hrepl : ∀ s : List Char,
      normalizeSerial lower s = s.map fun c => if lower c = ':' then '-' else lower c := by
    intro s
    rw [normalizeSerial, List.map_map]
    refine List.map_congr_left fun a _ => ?_
    by_cases h : lower a = ':' <;> simp [Function.comp, h]
  constructor
  · rw [hrepl, hrepl, List.map_map]
    refine List.map_congr_left fun a _ => ?_
    show (if lower (if lower a = ':' then '-' else lower a) = ':' then '-'
          else lower (if lower a = ':' then '-' else lower a)) =
         (if lower a = ':' then '-' else lower a)
    by_cases h : lower a = ':'
    · rw [if_pos h, hdash, if_neg (by decide)]
    · rw [if_neg h, hidem a, if_neg h]
  · intro c hc
    rw [hrepl] at hc
    obtain ⟨a, _, ha⟩ := List.mem_map.mp hc
    by_cases h : lower a = ':'
    · rw [if_pos h] at ha
      exact ha ▸ ⟨by decide, by decide⟩
    · rw [if_neg h] at ha
      exact ha ▸ ⟨h, hupper a⟩

/-- C9 witness: the theorem applied at a concrete lower-casing function
satisfying its three hypotheses (the constant rune map to `'-'`, which is
idempotent, never yields uppercase ASCII, and fixes `'-'`) and the serial
`"AB:0F:Z9"`. -/
theorem C9_normalizeSerial_idempotent_witness :
    normalizeSerial (fun _ => '-')
        (normalizeSerial (fun _ => '-') ['A', 'B', ':', '0', 'F', ':', 'Z', '9']) =
      normalizeSerial (fun _ => '-') ['A', 'B', ':', '0', 'F', ':', 'Z', '9']
    ∧ ∀ c ∈ normalizeSerial (fun _ => '-') ['A', 'B', ':', '0', 'F', ':', 'Z', '9'],
        c ≠ ':' ∧ isUpperAscii c = false :=
  C9_normalizeSerial_idempotent (fun _ => '-')
    (fun _ => rfl) (fun _ => show isUpperAscii '-' = false by decide) rfl
    ['A', 'B', ':', '0', 'F', ':', 'Z', '9']

/-- C2 counterexample: the claim "the call reports failure by returning a
non-nil error" is false. When the connector's refresh returns empty
tokens together with a nil error, `updateAccessToken` takes the
`return err` branch and returns that nil error: the call reports
*success*. (The storage is indeed left unchanged.) -/
theorem C2_counterexample :
    ((⟨fun _ => (⟨"", ""⟩, none)⟩ : Connector).refresh
        (refreshAuth ⟨"", "rt"⟩)).1.access_token = ""
    ∧ updateAccessToken (some ⟨none, .never, 0⟩) (fun _ => true)
        ⟨fun _ => (⟨"", ""⟩, none)⟩ ⟨"", "rt"⟩
        ⟨fun _ _ => .error "no role", fun _ _ => .error "no secret"⟩
        [] "r" =
      (.returned none, [], [refreshAuth ⟨"", "rt"⟩]) :=
  ⟨rfl, rfl⟩

/-- C2 amended: whenever the HTTP client is built successfully and the
connector's refresh response has an empty access token or an empty
refresh token, no storage write is performed (the stored state is
returned unchanged) and `updateAccessToken` returns the connector's own
error value — which surfaces a connector failure, but is nil (reported as
success) when the connector returned empty tokens with a nil error;
a non-nil error is not guaranteed. -/
theorem C2_updateAccessToken_empty_tokens
    (defaultCfg : Option TLSConfig) (appendOk : String → Bool)
    (conn : Connector) (cfg : VcertConfig) (b : Backend) (stor : Storage)
    (roleName : String) (client : HttpClient) (post : Option TLSConfig)
    (hok : getHTTPClient defaultCfg appendOk cfg.connectionTrust = (.ok client, post))
    (hempty : (conn.refresh (refreshAuth cfg)).1.access_token = ""
              ∨ (conn.refresh (refreshAuth cfg)).1.refresh_token = "") :
    updateAccessToken defaultCfg appendOk conn cfg b stor roleName =
      (.returned (conn.refresh (refreshAuth cfg)).2, stor, [refreshAuth cfg]) := by
  simp only [updateAccessToken, hok]
  rw [if_neg]
  rcases hempty with he | he
  · exact fun h => h.1 he
  · exact fun h => h.2 he

/-- C2 witness: the amended theorem at a concrete call — connector
returns an empty access token with an error; the error is surfaced and
the stored entry is untouched. -/
theorem C2_updateAccessToken_empty_tokens_witness :
    updateAccessToken (some ⟨none, .never, 1⟩) (fun _ => true)
        ⟨fun _ => (⟨"", "newRt"⟩, some "refresh failed")⟩ ⟨"", "storedRt"⟩
        ⟨fun _ _ => .error "no role", fun _ _ => .error "no secret"⟩
        [("p", ⟨"oldA", "oldR", "x"⟩)] "web" =
      (.returned (some "refresh failed"), [("p", ⟨"oldA", "oldR", "x"⟩)],
       [refreshAuth ⟨"", "storedRt"⟩]) :=
  C2_updateAccessToken_empty_tokens _ _ _ _ _ _ _ _ _ rfl (.inl rfl)

/-- C3: the token pair is only ever persisted atomically. Any call to
`storeAccessData` either leaves the storage unchanged or performs exactly
one write, whose entry carries *both* tokens from the refresh response;
and any call to `updateAccessToken` either leaves the storage unchanged
or performs exactly one write whose entry carries both tokens of the
connector's response, which are then both non-empty. No reachable
post-storage has only one of the two tokens updated. -/
theorem C3_token_pair_atomic (defaultCfg : Option TLSConfig) (appendOk : String → Bool)
    (conn : Connector) (cfg : VcertConfig) (b : Backend) (stor : Storage)
    (roleName : String) :
    (∀ resp : OauthRefreshAccessTokenResponse,
      (storeAccessData b stor roleName resp).2 = stor ∨
      ∃ path entry, (storeAccessData b stor roleName resp).2 = (path, entry) :: stor
        ∧ entry.accessToken = resp.access_token
        ∧ entry.refreshToken = resp.refresh_token)
    ∧ ((updateAccessToken defaultCfg appendOk conn cfg b stor roleName).2.1 = stor ∨
      ∃ path entry,
        (updateAccessToken defaultCfg appendOk conn cfg b stor roleName).2.1 =
            (path, entry) :: stor
          ∧ entry.accessToken = (conn.refresh (refreshAuth cfg)).1.access_token
          ∧ entry.refreshToken = (conn.refresh (refreshAuth cfg)).1.refresh_token
          ∧ (conn.refresh (refreshAuth cfg)).1.access_token ≠ ""
          ∧ (conn.refresh (refreshAuth cfg)).1.refresh_token ≠ "") := by
  have hstore : ∀ resp : OauthRefreshAccessTokenResponse,
      (storeAccessData b stor roleName resp).2 = stor ∨
      ∃ path entry, (storeAccessData b stor roleName resp).2 = (path, entry) :: stor
        ∧ entry.accessToken = resp.access_token
        ∧ entry.refreshToken = resp.refresh_token := by
    intro resp
    rcases hr : b.getRole stor roleName with e | entry
    · left; simp [storeAccessData, hr]
    · by_cases hs : entry.venafiSecret = ""
      · left; simp [storeAccessData, hr, hs]
      · rcases hv : b.getVenafiSecret stor entry.venafiSecret with e | v
        · left; simp [storeAccessData, hr, hs, hv]
        · right
          refine ⟨CredentialsRootPath ++ entry.venafiSecret,
            { v with accessToken := resp.access_token, refreshToken := resp.refresh_token },
            ?_, rfl, rfl⟩
          simp [storeAccessData, hr, hs, hv]
  refine ⟨hstore, ?_⟩
  rcases hg : getHTTPClient defaultCfg appendOk cfg.connectionTrust with ⟨res, post⟩
  cases res with
  | error e =>
    cases e with
    | msg s => left; simp [updateAccessToken, hg]
    | nilPanic => left; simp [updateAccessToken, hg]
  | ok client =>
    by_cases hcond : (conn.refresh (refreshAuth cfg)).1.access_token ≠ ""
        ∧ (conn.refresh (refreshAuth cfg)).1.refresh_token ≠ ""
    · have hupd : (updateAccessToken defaultCfg appendOk conn cfg b stor roleName).2.1 =
          (storeAccessData b stor roleName (conn.refresh (refreshAuth cfg)).1).2 := by
        rcases hsd : storeAccessData b stor roleName (conn.refresh (refreshAuth cfg)).1
          with ⟨oe, st⟩
        cases oe <;> simp [updateAccessToken, hg, hcond, hsd]
      rcases hstore (conn.refresh (refreshAuth cfg)).1 with h | ⟨p, en, he, ha, hrf⟩
      · left; rw [hupd, h]
      · right; exact ⟨p, en, hupd.trans he, ha, hrf, hcond.1, hcond.2⟩
    · left; simp [updateAccessToken, hg, hcond]

/-- C8: every `RefreshAccessToken` invocation made by `updateAccessToken`
is passed exactly the currently stored refresh token
(`cfg.Credentials.RefreshToken`), the fixed client identifier
"hashicorp-vault-by-venafi", and the fixed scope
"certificate:manage,revoke". -/
theorem C8_refresh_auth_fixed (defaultCfg : Option TLSConfig) (appendOk : String → Bool)
    (conn : Connector) (cfg : VcertConfig) (b : Backend) (stor : Storage)
    (roleName : String) (a : Authentication)
    (ha : a ∈ (updateAccessToken defaultCfg appendOk conn cfg b stor roleName).2.2) :
    a = { refreshToken := cfg.credentialsRefreshToken
          clientId := "hashicorp-vault-by-venafi"
          scope := "certificate:manage,revoke" } := by
  have htrace : (updateAccessToken defaultCfg appendOk conn cfg b stor roleName).2.2 = []
      ∨ (updateAccessToken defaultCfg appendOk conn cfg b stor roleName).2.2 =
          [refreshAuth cfg] := by
    rcases hg : getHTTPClient defaultCfg appendOk cfg.connectionTrust with ⟨res, post⟩
    cases res with
    | error e =>
      cases e with
      | msg s => left; simp [updateAccessToken, hg]
      | nilPanic => left; simp [updateAccessToken, hg]
    | ok client =>
      by_cases hcond : (conn.refresh (refreshAuth cfg)).1.access_token ≠ ""
          ∧ (conn.refresh (refreshAuth cfg)).1.refresh_token ≠ ""
      · rcases hsd : storeAccessData b stor roleName (conn.refresh (refreshAuth cfg)).1
          with ⟨oe, st⟩
        cases oe <;> (right; simp [updateAccessToken, hg, hcond, hsd])
      · right; simp [updateAccessToken, hg, hcond]
  rcases htrace with h | h
  · rw [h] at ha
    cases ha
  · rw [h] at ha
    rw [List.mem_singleton.mp ha]
    rfl

/-- C8 witness: the theorem applied at a concrete call whose trace is
non-empty. -/
theorem C8_refresh_auth_fixed_witness :
    refreshAuth ⟨"", "tok123"⟩ =
      { refreshToken := "tok123"
        clientId := "hashicorp-vault-by-venafi"
        scope := "certificate:manage,revoke" } :=
  C8_refresh_auth_fixed (some ⟨none, .never, 0⟩) (fun _ => true)
    ⟨fun _ => (⟨"at", "rt2"⟩, none)⟩ ⟨"", "tok123"⟩
    ⟨fun _ _ => .error "e", fun _ _ => .error "e2"⟩ [] "r"
    (refreshAuth ⟨"", "tok123"⟩) (by decide)

/-- C10: when the role resolved by `storeAccessData` has an empty Venafi
secret reference, the call returns the error
"Role <name> does not have any Venafi secret associated" and performs no
storage write: the stored credential state is returned unchanged. -/
theorem C10_storeAccessData_missing_secret (b : Backend) (stor : Storage)
    (roleName : String) (resp : OauthRefreshAccessTokenResponse) (entry : RoleEntry)
    (hrole : b.getRole stor roleName = .ok entry) (hsec : entry.venafiSecret = "") :
    storeAccessData b stor roleName resp =
      (some ("Role " ++ roleName ++ " does not have any Venafi secret associated"),
       stor) := by
  simp [storeAccessData, hrole, hsec]

/-- C10 witness: the theorem at a concrete backend whose role entry has an
empty Venafi secret reference. -/
theorem C10_storeAccessData_missing_secret_witness :
    storeAccessData ⟨fun _ _ => .ok ⟨""⟩, fun _ _ => .error "unused"⟩
        [("p", ⟨"a", "r", "o"⟩)] "web" ⟨"na", "nr"⟩ =
      (some ("Role " ++ "web" ++ " does not have any Venafi secret associated"),
       [("p", ⟨"a", "r", "o"⟩)]) :=
  C10_storeAccessData_missing_secret _ _ _ _ ⟨""⟩ rfl rfl

end VenafiPKI
